import Mathlib

/-!
Shallow embedding of a trading decision and risk-gated order-lifecycle engine:
a risk manager (position / loss / drawdown / exposure / order-count / time
checks), strategy P&L tracking and market-making quote rounding, backtest
position accounting with realized and unrealized P&L, and an order executor
state machine.  Prices and P&L are modelled as exact rationals, quantities as
integers, clock times of day as rational minutes since midnight; the current
wall-clock time is passed explicitly to the checks that read it.  Python
dictionaries keyed by instrument or order id are modelled as insertion-ordered
association lists.
-/

/-- Lookup in an association list, first binding wins (Python dict read). -/
def lookupA {β : Type} : List (String × β) → String → Option β
  | [], _ => none
  | (a, b) :: rest, k => if a = k then some b else lookupA rest k

/-- Write a key in an association list: replace the existing binding in place,
else append at the end (Python dict write, insertion order preserved). -/
def setA {β : Type} : List (String × β) → String → β → List (String × β)
  | [], k, v => [(k, v)]
  | (a, b) :: rest, k, v =>
    if a = k then (a, v) :: rest else (a, b) :: setA rest k v

namespace Risk

/-- One entry of RiskManager.positions: quantity, average price, last price
and the last computed P&L for a single instrument. -/
structure RiskPos where
  quantity : ℤ
  avg_price : ℚ
  last_price : ℚ
  pnl : ℚ
  deriving DecidableEq

/-- The risk parameter dictionary: per-instrument max position size with a
default fallback, loss / exposure / drawdown caps, market hours window,
auto-square-off time (minutes since midnight) and the open-order cap. -/
structure RiskParams where
  size_overrides : List (String × ℤ)
  size_default : ℤ
  max_daily_loss : ℚ
  max_notional_exposure : ℚ
  max_drawdown : ℚ
  market_start : ℚ
  market_end : ℚ
  auto_square_off_time : ℚ
  max_open_orders : ℕ
  deriving DecidableEq

/-- The default risk parameters built in RiskManager.__init__ (NIFTY 50,
BANKNIFTY 25, default 100; 9:15-15:30 market hours, 15:15 square-off). -/
def defaultParams : RiskParams where
  size_overrides := [("NIFTY", 50), ("BANKNIFTY", 25)]
  size_default := 100
  max_daily_loss := 10000
  max_notional_exposure := 1000000
  max_drawdown := 1/20
  market_start := 555
  market_end := 930
  auto_square_off_time := 915
  max_open_orders := 50

/-- Mutable state of RiskManager: positions and orders books plus the P&L,
drawdown and breach-latch fields. -/
structure RiskState where
  params : RiskParams
  positions : List (String × RiskPos)
  orders : List (String × String)
  daily_pnl : ℚ
  peak_pnl : ℚ
  current_drawdown : ℚ
  trading_enabled : Bool
  risk_breach : Bool
  risk_breach_reason : Option String
  deriving DecidableEq

/-- Fresh RiskManager state for given parameters (RiskManager.__init__). -/
def riskInit (p : RiskParams) : RiskState where
  params := p
  positions := []
  orders := []
  daily_pnl := 0
  peak_pnl := 0
  current_drawdown := 0
  trading_enabled := true
  risk_breach := false
  risk_breach_reason := none

/-- RiskManager.check_market_hours at clock time `now`. -/
def check_market_hours (p : RiskParams) (now : ℚ) : Bool :=
  decide (p.market_start ≤ now ∧ now ≤ p.market_end)

/-- RiskManager.check_auto_square_off at clock time `now`. -/
def check_auto_square_off (p : RiskParams) (now : ℚ) : Bool :=
  decide (p.auto_square_off_time ≤ now)

/-- The per-instrument size limit: instrument-specific override, else the
default (the dict lookup in RiskManager.check_position_limit). -/
def position_limit_for (p : RiskParams) (inst : String) : ℤ :=
  (lookupA p.size_overrides inst).getD p.size_default

/-- Quantity currently recorded for an instrument, zero when absent
(`positions.get(instrument, {}).get("quantity", 0)`). -/
def posQty (s : RiskState) (inst : String) : ℤ :=
  ((lookupA s.positions inst).map RiskPos.quantity).getD 0

/-- RiskManager.check_position_limit: true when within limits.  Note the
source takes the absolute value of the current position before applying the
signed change. -/
def check_position_limit (s : RiskState) (inst : String) (qc : ℤ) : Bool :=
  decide (|(|posQty s inst| + qc)| ≤ position_limit_for s.params inst)

/-- RiskManager.check_daily_loss_limit: true when within limits. -/
def check_daily_loss_limit (s : RiskState) : Bool :=
  decide (s.daily_pnl ≥ -s.params.max_daily_loss)

/-- RiskManager.check_drawdown_limit: true when within limits. -/
def check_drawdown_limit (s : RiskState) : Bool :=
  decide (s.current_drawdown ≤ s.params.max_drawdown)

/-- Total notional exposure Σ |quantity| * last_price over all positions. -/
def notional_exposure (s : RiskState) : ℚ :=
  (s.positions.map (fun e => (|e.2.quantity| : ℚ) * e.2.last_price)).sum

/-- RiskManager.check_notional_exposure: true when within limits. -/
def check_notional_exposure (s : RiskState) : Bool :=
  decide (notional_exposure s ≤ s.params.max_notional_exposure)

/-- Count of orders whose status is OPEN or PENDING. -/
def open_orders_count (s : RiskState) : ℕ :=
  s.orders.countP (fun e => decide (e.2 = "OPEN" ∨ e.2 = "PENDING"))

/-- RiskManager.check_open_orders_limit: true when within limits. -/
def check_open_orders_limit (s : RiskState) : Bool :=
  decide (open_orders_count s ≤ s.params.max_open_orders)

/-- One iteration of the loop in RiskManager.update_pnl: a position with
zero quantity, zero average price or zero last price is skipped (contributes
nothing and keeps its stored pnl); otherwise its pnl field is set to
(last - avg) * quantity and that value is contributed to the total. -/
def posPnlStep (e : String × RiskPos) : (String × RiskPos) × ℚ :=
  if e.2.quantity = 0 ∨ e.2.avg_price = 0 ∨ e.2.last_price = 0 then (e, 0)
  else
    let v := (e.2.last_price - e.2.avg_price) * (e.2.quantity : ℚ)
    ((e.1, { e.2 with pnl := v }), v)

/-- RiskManager.update_pnl: recompute daily P&L from the positions, raise the
peak, and recompute the drawdown from the (possibly raised) peak. -/
def update_pnl (s : RiskState) : RiskState :=
  let stepped := s.positions.map posPnlStep
  let total : ℚ := (stepped.map Prod.snd).sum
  let peak := if total > s.peak_pnl then total else s.peak_pnl
  let dd := if peak > 0 then (peak - total) / peak else 0
  { s with
    positions := stepped.map Prod.fst
    daily_pnl := total
    peak_pnl := peak
    current_drawdown := dd }

/-- RiskManager.update_position: insert a zeroed entry when the instrument is
new, overwrite its quantity and last price, then recompute P&L. -/
def update_position (s : RiskState) (inst : String) (q : ℤ) (price : ℚ) :
    RiskState :=
  let positions₀ :=
    match lookupA s.positions inst with
    | some _ => s.positions
    | none => s.positions ++ [(inst, ⟨0, 0, 0, 0⟩)]
  let p := (lookupA positions₀ inst).getD ⟨0, 0, 0, 0⟩
  update_pnl { s with
    positions := setA positions₀ inst { p with quantity := q, last_price := price } }

/-- RiskManager.check_all_risk_limits at clock time `now`: the six checks in
source order, first failure latches the breach reason and disables trading;
all passing clears the latch. -/
def check_all_risk_limits (s : RiskState) (now : ℚ) : Bool × RiskState :=
  if check_market_hours s.params now = false then
    (false, { s with
              risk_breach := true
              risk_breach_reason := some "Outside market hours"
              trading_enabled := false })
  else if check_daily_loss_limit s = false then
    (false, { s with
              risk_breach := true
              risk_breach_reason := some "Daily loss limit exceeded"
              trading_enabled := false })
  else if check_drawdown_limit s = false then
    (false, { s with
              risk_breach := true
              risk_breach_reason := some "Drawdown limit exceeded"
              trading_enabled := false })
  else if check_notional_exposure s = false then
    (false, { s with
              risk_breach := true
              risk_breach_reason := some "Notional exposure limit exceeded"
              trading_enabled := false })
  else if check_open_orders_limit s = false then
    (false, { s with
              risk_breach := true
              risk_breach_reason := some "Open orders limit exceeded"
              trading_enabled := false })
  else if check_auto_square_off s.params now = true then
    (false, { s with
              risk_breach := true
              risk_breach_reason := some "Auto square off time reached"
              trading_enabled := false })
  else
    (true, { s with
             risk_breach := false
             risk_breach_reason := none
             trading_enabled := true })

/-- The order fields read by RiskManager.validate_order. -/
structure OrderReq where
  instrument : String
  transaction_type : String
  quantity : ℤ
  deriving DecidableEq

/-- Position change implied by an order: +quantity for BUY, -quantity
otherwise (the conversion in RiskManager.validate_order). -/
def signedChange (o : OrderReq) : ℤ :=
  if o.transaction_type = "BUY" then o.quantity else -o.quantity

/-- RiskManager.validate_order: trading must be enabled and the position
limit check must pass. -/
def validate_order (s : RiskState) (o : OrderReq) : Bool × String :=
  if s.trading_enabled = false then
    (false, "Trading disabled: " ++ (s.risk_breach_reason.getD "None"))
  else if check_position_limit s o.instrument (signedChange o) then
    (true, "Order validated")
  else
    (false, "Position limit exceeded for " ++ o.instrument)

end Risk

namespace Strategy

/-- The P&L-tracking fields of the base Strategy class touched by
Strategy.update_pnl. -/
structure PnlState where
  pnl : ℚ
  total_pnl : ℚ
  peak_pnl : ℚ
  max_drawdown : ℚ
  deriving DecidableEq

/-- Initial values set in Strategy.__init__. -/
def stratInit : PnlState := ⟨0, 0, 0, 0⟩

/-- Strategy.update_pnl: record the fed P&L; a new high raises the peak,
otherwise the drawdown from the peak (0 when the peak is not positive) is
folded into the running maximum drawdown. -/
def update_pnl (s : PnlState) (pnl : ℚ) : PnlState :=
  let s₁ := { s with pnl := pnl, total_pnl := pnl }
  if pnl > s₁.peak_pnl then { s₁ with peak_pnl := pnl }
  else
    let drawdown := if s₁.peak_pnl > 0 then (s₁.peak_pnl - pnl) / s₁.peak_pnl else 0
    { s₁ with max_drawdown := max s₁.max_drawdown drawdown }

/-- Feed a sequence of P&L values through Strategy.update_pnl from the
initial state. -/
def runPnls (pnls : List ℚ) : PnlState := pnls.foldl update_pnl stratInit

/-- Strategy parameters of MarketMakingStrategy. -/
structure MMParams where
  spread_percentage : ℚ
  order_quantity : ℤ
  position_limit : ℤ
  min_price_increment : ℚ
  cancel_replace_threshold : ℚ
  deriving DecidableEq

/-- Rounding of a rational to the nearest integer with ties to the even
integer: the behaviour of the builtin round() applied to the quotient in
MarketMakingStrategy.calculate_bid_price / calculate_ask_price. -/
def roundHalfEven (x : ℚ) : ℤ :=
  if x - ⌊x⌋ < 1/2 then ⌊x⌋
  else if 1/2 < x - ⌊x⌋ then ⌊x⌋ + 1
  else if ⌊x⌋ % 2 = 0 then ⌊x⌋ else ⌊x⌋ + 1

/-- MarketMakingStrategy.calculate_bid_price: mid minus the percentage
spread, rounded to the nearest price increment. -/
def calculate_bid_price (p : MMParams) (mid : ℚ) : ℚ :=
  let price := mid - mid * p.spread_percentage
  (roundHalfEven (price / p.min_price_increment) : ℚ) * p.min_price_increment

/-- MarketMakingStrategy.calculate_ask_price: mid plus the percentage
spread, rounded to the nearest price increment. -/
def calculate_ask_price (p : MMParams) (mid : ℚ) : ℚ :=
  let price := mid + mid * p.spread_percentage
  (roundHalfEven (price / p.min_price_increment) : ℚ) * p.min_price_increment

/-- Modelled from the spec: the bid computation as the specification words
it, with a round-half-up rule (`round x = ⌊x + 1/2⌋`) on price/increment.
Kept separate so it can be compared with the source's rounding. -/
def calculate_bid_price_halfup (p : MMParams) (mid : ℚ) : ℚ :=
  let price := mid - mid * p.spread_percentage
  (round (price / p.min_price_increment) : ℚ) * p.min_price_increment

end Strategy

namespace Backtest

/-- One entry of Backtest.positions. -/
structure BPos where
  quantity : ℤ
  avg_price : ℚ
  current_price : ℚ
  realized_pnl : ℚ
  deriving DecidableEq

/-- The trade record built in Backtest.execute_signal; the optional pnl
field models the presence or absence of a 'pnl' key in the trade dict. -/
structure Trade where
  instrument : String
  action : String
  quantity : ℤ
  price : ℚ
  timestamp : String
  order_type : String
  pnl : Option ℚ
  deriving DecidableEq

/-- The zeroed position created when an instrument first trades. -/
def initBPos (price : ℚ) : BPos := ⟨0, 0, price, 0⟩

/-- The per-position body of Backtest.update_position: BUY folds the trade
into the weighted average (when the resulting quantity is non-zero) and adds
the quantity; SELL realizes (price - avg) * min(qty, position) against a long
position, subtracts the quantity, and resets the average price only when the
position flips from long to short; the current price is always updated. -/
def applyTrade (p : BPos) (action : String) (q : ℤ) (price : ℚ) : BPos :=
  let p₁ :=
    if action = "BUY" then
      let p₂ :=
        if p.quantity + q ≠ 0 then
          { p with avg_price :=
              ((p.quantity : ℚ) * p.avg_price + (q : ℚ) * price) / ((p.quantity : ℚ) + (q : ℚ)) }
        else p
      { p₂ with quantity := p₂.quantity + q }
    else if action = "SELL" then
      let p₂ :=
        if p.quantity > 0 then
          { p with realized_pnl :=
              p.realized_pnl + (price - p.avg_price) * ((min q p.quantity : ℤ) : ℚ) }
        else p
      let p₃ := { p₂ with quantity := p₂.quantity - q }
      if p₃.quantity < 0 ∧ p₃.quantity + q > 0 then { p₃ with avg_price := price }
      else p₃
    else p
  { p₁ with current_price := price }

/-- Backtest.update_position on the positions book: create a zeroed entry
for a new instrument, then apply the trade to that instrument's position. -/
def update_position (book : List (String × BPos)) (t : Trade) :
    List (String × BPos) :=
  let book₀ :=
    match lookupA book t.instrument with
    | some _ => book
    | none => book ++ [(t.instrument, initBPos t.price)]
  let p := (lookupA book₀ t.instrument).getD (initBPos t.price)
  setA book₀ t.instrument (applyTrade p t.action t.quantity t.price)

/-- Quantity recorded for an instrument (0 when absent). -/
def qtyOf (book : List (String × BPos)) (inst : String) : ℤ :=
  ((lookupA book inst).getD (initBPos 0)).quantity

/-- Average price recorded for an instrument (0 when absent). -/
def avgOf (book : List (String × BPos)) (inst : String) : ℚ :=
  ((lookupA book inst).getD (initBPos 0)).avg_price

/-- Realized P&L recorded for an instrument (0 when absent). -/
def realizedOf (book : List (String × BPos)) (inst : String) : ℚ :=
  ((lookupA book inst).getD (initBPos 0)).realized_pnl

/-- Backtest.calculate_equity: initial capital plus every realized P&L plus
the unrealized P&L of each position with non-zero quantity, average price
and current price. -/
def calculate_equity (book : List (String × BPos)) (initial : ℚ) : ℚ :=
  initial + (book.map (fun e => e.2.realized_pnl)).sum +
    (book.map (fun e =>
      if e.2.quantity ≠ 0 ∧ e.2.avg_price ≠ 0 ∧ e.2.current_price ≠ 0 then
        (e.2.current_price - e.2.avg_price) * (e.2.quantity : ℚ)
      else 0)).sum

/-- The signal fields read by Backtest.execute_signal. -/
structure Signal where
  instrument : String
  action : String
  quantity : ℤ
  price : Option ℚ
  order_type : String
  deriving DecidableEq

/-- The backtest state touched by Backtest.execute_signal. -/
structure BState where
  positions : List (String × BPos)
  trades : List Trade
  deriving DecidableEq

/-- Backtest.execute_signal: with a non-zero limit price it records a trade
(without any pnl field) and updates the position.  A missing or zero price
or a MARKET order makes the source read an attribute the object does not
have and raise; that path is modelled as `none`. -/
def execute_signal (s : BState) (sig : Signal) (timestamp : String) :
    Option BState :=
  match sig.price with
  | none => none
  | some pr =>
    if pr = 0 ∨ sig.order_type = "MARKET" then none
    else
      let trade : Trade :=
        ⟨sig.instrument, sig.action, sig.quantity, pr, timestamp, sig.order_type, none⟩
      some ⟨update_position s.positions trade, s.trades ++ [trade]⟩

/-- Count of trades whose pnl value (0 when the field is absent) is
positive, as read by Backtest.calculate_performance_metrics. -/
def winning_trades (ts : List Trade) : ℕ :=
  ts.countP (fun t => decide (0 < t.pnl.getD 0))

/-- The win-rate computation of Backtest.calculate_performance_metrics. -/
def win_rate (ts : List Trade) : ℚ :=
  if 0 < ts.length then (winning_trades ts : ℚ) / (ts.length : ℚ) else 0

end Backtest

namespace Executor

/-- The order-dict fields of OrderExecutor relevant to modify and cancel. -/
structure EOrder where
  instrument : String
  transaction_type : String
  quantity : ℤ
  order_type : String
  status : String
  price : Option ℚ
  deriving DecidableEq

/-- The OrderExecutor state touched by modify_order and cancel_order. -/
structure EState where
  orders : List (String × EOrder)
  filled_orders : ℕ
  deriving DecidableEq

/-- Result of a modify or cancel call: an error dict with a message, or the
(updated) order dict. -/
inductive ExecResult where
  | err (msg : String)
  | ok (ord : EOrder)
  deriving DecidableEq

/-- Python truthiness of an optional new price: only a present non-zero
value overwrites the field. -/
def applyOptPrice (old : Option ℚ) (v : Option ℚ) : Option ℚ :=
  match v with
  | some x => if x ≠ 0 then some x else old
  | none => old

/-- Python truthiness of an optional new quantity: only a present non-zero
value overwrites the field. -/
def applyOptQty (old : ℤ) (v : Option ℤ) : ℤ :=
  match v with
  | some x => if x ≠ 0 then x else old
  | none => old

/-- OrderExecutor.modify_order: unknown id or a status outside OPEN/PENDING
is an error leaving the state untouched; otherwise price and quantity are
updated client-side, and the simulated API outcome (`apiSuccess`) either
keeps the order or marks it COMPLETE and counts a fill. -/
def modify_order (s : EState) (oid : String) (price : Option ℚ)
    (qty : Option ℤ) (apiSuccess : Bool) : ExecResult × EState :=
  match lookupA s.orders oid with
  | none => (.err "Order not found", s)
  | some o =>
    if o.status ≠ "OPEN" ∧ o.status ≠ "PENDING" then
      (.err ("Cannot modify order with status " ++ o.status), s)
    else
      let o₁ := { o with
                  price := applyOptPrice o.price price
                  quantity := applyOptQty o.quantity qty }
      if apiSuccess then
        (.ok o₁, { s with orders := setA s.orders oid o₁ })
      else
        let o₂ := { o₁ with status := "COMPLETE" }
        (.ok o₂, ⟨setA s.orders oid o₂, s.filled_orders + 1⟩)

/-- OrderExecutor.cancel_order: unknown id or a status outside OPEN/PENDING
is an error leaving the state untouched; otherwise the simulated API outcome
either cancels the order or marks it COMPLETE and counts a fill. -/
def cancel_order (s : EState) (oid : String) (apiSuccess : Bool) :
    ExecResult × EState :=
  match lookupA s.orders oid with
  | none => (.err "Order not found", s)
  | some o =>
    if o.status ≠ "OPEN" ∧ o.status ≠ "PENDING" then
      (.err ("Cannot cancel order with status " ++ o.status), s)
    else if apiSuccess then
      let o₁ := { o with status := "CANCELLED" }
      (.ok o₁, { s with orders := setA s.orders oid o₁ })
    else
      let o₁ := { o with status := "COMPLETE" }
      (.ok o₁, ⟨setA s.orders oid o₁, s.filled_orders + 1⟩)

end Executor

namespace Risk

/-- The six checks of check_all_risk_limits in source order, each paired
with the breach reason it records on failure (the entry for auto square off
passes while the square-off time has not been reached). -/
def orderedChecks (s : RiskState) (now : ℚ) : List (Bool × String) :=
  [(check_market_hours s.params now, "Outside market hours"),
   (check_daily_loss_limit s, "Daily loss limit exceeded"),
   (check_drawdown_limit s, "Drawdown limit exceeded"),
   (check_notional_exposure s, "Notional exposure limit exceeded"),
   (check_open_orders_limit s, "Open orders limit exceeded"),
   (!check_auto_square_off s.params now, "Auto square off time reached")]

/-- Reason attached to the first failing check of a check list, none when
every check passes. -/
def firstFailReason (l : List (Bool × String)) : Option String :=
  (l.find? (fun c => !c.1)).map Prod.snd

/-- A fresh risk state holding a short position of 50 in NIFTY. -/
def shortNifty : RiskState :=
  { riskInit defaultParams with positions := [("NIFTY", ⟨-50, 0, 0, 0⟩)] }

/-- A fresh risk state whose daily P&L stands at -10500 against the default
10000 daily loss cap. -/
def dailyLossState : RiskState :=
  { riskInit defaultParams with daily_pnl := -10500 }

/-- Feed a sequence of (instrument, quantity, price) updates through
RiskManager.update_position from a fresh state. -/
def runUpdates (p : RiskParams) (us : List (String × ℤ × ℚ)) : RiskState :=
  us.foldl (fun s u => update_position s u.1 u.2.1 u.2.2) (riskInit p)

end Risk

namespace Strategy

/-- Market-making parameters of the quoting scenario: 0.05% spread and a
0.05 price increment. -/
def mmScenario : MMParams := ⟨1/2000, 10, 50, 1/20, 1/50⟩

end Strategy

namespace Backtest

/-- A BUY of 10 at 2345.50 on instrument X. -/
def buyTen : Trade := ⟨"X", "BUY", 10, 4691/2, "t1", "LIMIT", none⟩

/-- A SELL of 10 at 2350.00 on instrument X. -/
def sellTen : Trade := ⟨"X", "SELL", 10, 2350, "t2", "LIMIT", none⟩

/-- The positions book after the BUY 10 @ 2345.50 / SELL 10 @ 2350.00
round trip from an empty book. -/
def closedBook : List (String × BPos) :=
  update_position (update_position [] buyTen) sellTen

/-- A long position of 10 at average price 2345.50. -/
def longTen : BPos := ⟨10, 4691/2, 0, 0⟩

/-- Apply one BUY fill (quantity, price) to a position. -/
def applyBuy (p : BPos) (f : ℤ × ℚ) : BPos := applyTrade p "BUY" f.1 f.2

/-- The trade recorded for a BUY fill (quantity, price) on instrument X. -/
def buyFillTrade (f : ℤ × ℚ) : Trade := ⟨"X", "BUY", f.1, f.2, "", "LIMIT", none⟩

/-- Run a sequence of BUY fills on instrument X against an empty book. -/
def runBuys (fills : List (ℤ × ℚ)) : List (String × BPos) :=
  fills.foldl (fun b f => update_position b (buyFillTrade f)) []

/-- A limit BUY signal carrying its own price. -/
def demoSignal : Signal := ⟨"X", "BUY", 10, some 100, "LIMIT"⟩

/-- The backtest state produced by executing the demo signal on an empty
state. -/
def demoResult : BState :=
  (execute_signal ⟨[], []⟩ demoSignal "t0").getD ⟨[], []⟩

end Backtest

namespace Executor

/-- An order already in the terminal status COMPLETE. -/
def doneOrder : EOrder := ⟨"RELIANCE", "BUY", 10, "LIMIT", "COMPLETE", some 100⟩

/-- An executor state holding only the completed order. -/
def doneState : EState := ⟨[("ORD000001", doneOrder)], 0⟩

end Executor

theorem lookupA_setA_self {β : Type} (xs : List (String × β)) (k : String) (v : β) :
    lookupA (setA xs k v) k = some v := by
  induction xs with
  | nil => simp [setA, lookupA]
  | cons e rest ih =>
    obtain ⟨a, b⟩ := e
    by_cases h : a = k <;> simp [setA, lookupA, h, ih]

theorem lookupA_append_single {β : Type} (xs : List (String × β)) (k : String) (v : β) :
    lookupA xs k = none → lookupA (xs ++ [(k, v)]) k = some v := by
  induction xs with
  | nil => intro _; simp [lookupA]
  | cons e rest ih =>
    obtain ⟨a, b⟩ := e
    intro h
    simp only [List.cons_append, lookupA] at h ⊢
    by_cases hak : a = k
    · rw [if_pos hak] at h
      exact absurd h (by simp)
    · rw [if_neg hak] at h ⊢
      exact ih h

theorem mem_setA {β : Type} (xs : List (String × β)) (k : String) (v : β) (e : String × β) :
    e ∈ setA xs k v → e ∈ xs ∨ e = (k, v) := by
  induction xs with
  | nil => intro he; simpa [setA] using he
  | cons f rest ih =>
    obtain ⟨a, b⟩ := f
    intro he
    by_cases hak : a = k
    · subst hak
      simp only [setA, if_pos rfl] at he
      cases he with
      | head => exact Or.inr rfl
      | tail _ h => exact Or.inl (List.mem_cons_of_mem _ h)
    · simp only [setA, if_neg hak] at he
      cases he with
      | head => exact Or.inl (List.mem_cons_self _ _)
      | tail _ h =>
        rcases ih h with h2 | h2
        · exact Or.inl (List.mem_cons_of_mem _ h2)
        · exact Or.inr h2

theorem lookupA_mem {β : Type} (xs : List (String × β)) (k : String) (b : β) :
    lookupA xs k = some b → (k, b) ∈ xs := by
  induction xs with
  | nil => intro h; simp [lookupA] at h
  | cons e rest ih =>
    obtain ⟨a, c⟩ := e
    intro h
    simp only [lookupA] at h
    by_cases hak : a = k
    · subst hak
      rw [if_pos rfl] at h
      cases h
      exact List.mem_cons_self _ _
    · rw [if_neg hak] at h
      exact List.mem_cons_of_mem _ (ih h)

/-- C2: check_all_risk_limits evaluates trading hours, daily loss, drawdown,
notional exposure, open orders and auto-square-off in that fixed order; the
first failing check determines the recorded breach reason, trading_enabled
tracks the returned boolean, and a pass clears the reason.  In the concrete
scenario with the default limits (max_daily_loss = 10000), daily_pnl =
-10500 and a clock time inside market hours, the call returns false with
reason "Daily loss limit exceeded" and trading disabled. -/
theorem c2_check_all_risk_limits_first_failure :
    (∀ (s : Risk.RiskState) (now : ℚ),
      (Risk.check_all_risk_limits s now).1 = (Risk.orderedChecks s now).all Prod.fst ∧
      (Risk.check_all_risk_limits s now).2.risk_breach_reason
          = Risk.firstFailReason (Risk.orderedChecks s now) ∧
      (Risk.check_all_risk_limits s now).2.trading_enabled
          = (Risk.check_all_risk_limits s now).1 ∧
      (Risk.check_all_risk_limits s now).2.risk_breach
          = !(Risk.check_all_risk_limits s now).1) ∧
    (Risk.check_all_risk_limits Risk.dailyLossState 600).1 = false ∧
    (Risk.check_all_risk_limits Risk.dailyLossState 600).2.risk_breach_reason
        = some "Daily loss limit exceeded" ∧
    (Risk.check_all_risk_limits Risk.dailyLossState 600).2.trading_enabled = false := by
  refine ⟨fun s now => ?_, by decide, by decide, by decide⟩
  cases h1 : Risk.check_market_hours s.params now <;>
    cases h2 : Risk.check_daily_loss_limit s <;>
      cases h3 : Risk.check_drawdown_limit s <;>
        cases h4 : Risk.check_notional_exposure s <;>
          cases h5 : Risk.check_open_orders_limit s <;>
            cases h6 : Risk.check_auto_square_off s.params now <;>
              simp [Risk.check_all_risk_limits, Risk.orderedChecks,
                Risk.firstFailReason, h1, h2, h3, h4, h5, h6, List.find?]

/-- C1 counterexample: with trading enabled and a short position of -50 in
NIFTY (limit 50), a BUY of 10 would move the signed position to -40, within
the limit, yet validate_order denies it with the position-limit reason,
because check_position_limit adds the signed change to the absolute value of
the current position. -/
theorem c1_counterexample :
    Risk.shortNifty.trading_enabled = true ∧
    Risk.posQty Risk.shortNifty "NIFTY" = -50 ∧
    Risk.position_limit_for Risk.shortNifty.params "NIFTY" = 50 ∧
    |(-50 : ℤ) + 10| ≤ 50 ∧
    (Risk.validate_order Risk.shortNifty ⟨"NIFTY", "BUY", 10⟩).1 = false ∧
    (Risk.validate_order Risk.shortNifty ⟨"NIFTY", "BUY", 10⟩).2
        = "Position limit exceeded for NIFTY" := by
  decide

/-- C5 counterexample: a BUY of 10 at 2345.50 followed by a SELL of 10 at
2350.00 returns the quantity to 0, yet the recorded avg_price is still the
non-zero 2345.50 — the source never clears avg_price on a close to zero. -/
theorem c5_counterexample :
    Backtest.qtyOf Backtest.closedBook "X" = 0 ∧
    Backtest.avgOf Backtest.closedBook "X" = 4691/2 ∧
    Backtest.avgOf Backtest.closedBook "X" ≠ 0 := by
  norm_num [Backtest.qtyOf, Backtest.avgOf, Backtest.closedBook, Backtest.update_position,
    Backtest.applyTrade, Backtest.buyTen, Backtest.sellTen, Backtest.initBPos, lookupA, setA,
    show ("SELL" : String) ≠ "BUY" from by decide]

/-- C6 counterexample: feeding P&L values 100 then -50 through
Strategy.update_pnl leaves a positive peak of 100 while the computed
drawdown reaches 3/2, outside [0, 1]. -/
theorem c6_counterexample :
    (Strategy.runPnls [100, -50]).peak_pnl > 0 ∧
    (Strategy.runPnls [100, -50]).max_drawdown = 3/2 ∧
    ¬(Strategy.runPnls [100, -50]).max_drawdown ≤ 1 := by
  norm_num [Strategy.runPnls, Strategy.update_pnl, Strategy.stratInit]

/-- C7 counterexample: at mid = 50/1999 with the scenario parameters the
quotient price/increment is exactly 1/2; the source's builtin rounding takes
it to the even integer 0 while the claimed round-half-up rule would give 1,
so the two disagree on the quoted bid. -/
theorem c7_counterexample :
    Strategy.calculate_bid_price Strategy.mmScenario (50/1999) = 0 ∧
    Strategy.calculate_bid_price_halfup Strategy.mmScenario (50/1999) = 1/20 ∧
    Strategy.calculate_bid_price Strategy.mmScenario (50/1999)
        ≠ Strategy.calculate_bid_price_halfup Strategy.mmScenario (50/1999) := by
  norm_num [Strategy.calculate_bid_price, Strategy.calculate_bid_price_halfup,
    Strategy.roundHalfEven, Strategy.mmScenario, round_eq]

/-- C1 (amended): with trading enabled, validate_order allows an order
exactly when adding its signed quantity to the ABSOLUTE VALUE of the current
position keeps the absolute result within the instrument's limit
(override, else default), and a denial carries the position-limit reason. -/
theorem c1_position_limit_absolute_base :
    ∀ (s : Risk.RiskState) (o : Risk.OrderReq), s.trading_enabled = true →
      Risk.validate_order s o =
        (if |(|Risk.posQty s o.instrument| + Risk.signedChange o)|
              ≤ Risk.position_limit_for s.params o.instrument
         then (true, "Order validated")
         else (false, "Position limit exceeded for " ++ o.instrument)) := by
  intro s o h
  by_cases hp : |(|Risk.posQty s o.instrument| + Risk.signedChange o)|
      ≤ Risk.position_limit_for s.params o.instrument
  · rw [if_pos hp]
    simp [Risk.validate_order, Risk.check_position_limit, h, hp]
  · rw [if_neg hp]
    simp [Risk.validate_order, Risk.check_position_limit, h, hp]

/-- Witness for C1's amended theorem: a SELL of 3 against the NIFTY short of
50 gives |50 + (-3)| = 47 within the limit of 50 and is allowed. -/
theorem c1_position_limit_absolute_base_witness :
    Risk.shortNifty.trading_enabled = true ∧
    Risk.validate_order Risk.shortNifty ⟨"NIFTY", "SELL", 3⟩ =
      (if |(|Risk.posQty Risk.shortNifty "NIFTY"| + Risk.signedChange ⟨"NIFTY", "SELL", 3⟩)|
            ≤ Risk.position_limit_for Risk.shortNifty.params "NIFTY"
       then (true, "Order validated")
       else (false, "Position limit exceeded for " ++ "NIFTY")) :=
  ⟨rfl, c1_position_limit_absolute_base Risk.shortNifty ⟨"NIFTY", "SELL", 3⟩ rfl⟩

/-- C3: a long position of quantity Q > 0 fully closed by a single SELL of Q
at price P realizes exactly (P - avg_price) * Q and ends with quantity 0;
concretely, BUY 10 @ 2345.50 then SELL 10 @ 2350.00 from capital 100000
gives realized P&L 45, quantity 0 and equity 100045. -/
theorem c3_full_close_realizes_diff_times_qty :
    (∀ (p : Backtest.BPos) (P : ℚ), 0 < p.quantity →
      (Backtest.applyTrade p "SELL" p.quantity P).realized_pnl
          = p.realized_pnl + (P - p.avg_price) * (p.quantity : ℚ) ∧
      (Backtest.applyTrade p "SELL" p.quantity P).quantity = 0) ∧
    Backtest.realizedOf Backtest.closedBook "X" = 45 ∧
    Backtest.qtyOf Backtest.closedBook "X" = 0 ∧
    Backtest.calculate_equity Backtest.closedBook 100000 = 100045 := by
  constructor
  · intro p P h
    simp [Backtest.applyTrade, show ¬(("SELL" : String) = "BUY") from by decide, h,
      min_self, sub_self, lt_irrefl]
  · norm_num [Backtest.realizedOf, Backtest.qtyOf, Backtest.calculate_equity,
      Backtest.closedBook, Backtest.update_position, Backtest.applyTrade,
      Backtest.buyTen, Backtest.sellTen, Backtest.initBPos, lookupA, setA,
      show ("SELL" : String) ≠ "BUY" from by decide]

/-- Witness for C3: the general full-close statement applied to the long
position of 10 at 2345.50 sold at 2350. -/
theorem c3_full_close_realizes_diff_times_qty_witness :
    0 < Backtest.longTen.quantity ∧
    ((Backtest.applyTrade Backtest.longTen "SELL" Backtest.longTen.quantity 2350).realized_pnl
        = Backtest.longTen.realized_pnl
            + (2350 - Backtest.longTen.avg_price) * (Backtest.longTen.quantity : ℚ) ∧
     (Backtest.applyTrade Backtest.longTen "SELL" Backtest.longTen.quantity 2350).quantity = 0) :=
  ⟨by decide, c3_full_close_realizes_diff_times_qty.1 Backtest.longTen 2350 (by decide)⟩

/-- C5 (amended): a full close leaves avg_price untouched rather than
clearing it: after a SELL of exactly the long quantity the position has
quantity 0 and still carries its previous avg_price, so a non-zero
avg_price persists while the quantity is 0. -/
theorem c5_full_close_keeps_avg_price :
    ∀ (p : Backtest.BPos) (P : ℚ), 0 < p.quantity →
      (Backtest.applyTrade p "SELL" p.quantity P).quantity = 0 ∧
      (Backtest.applyTrade p "SELL" p.quantity P).avg_price = p.avg_price := by
  intro p P h
  simp [Backtest.applyTrade, show ¬(("SELL" : String) = "BUY") from by decide, h,
    sub_self, lt_irrefl]

/-- Witness for C5's amended theorem: closing a long of 7 at average price 3
by a SELL of 7 at 5 keeps avg_price 3 with quantity 0. -/
theorem c5_full_close_keeps_avg_price_witness :
    0 < (⟨7, 3, 0, 0⟩ : Backtest.BPos).quantity ∧
    ((Backtest.applyTrade ⟨7, 3, 0, 0⟩ "SELL" (⟨7, 3, 0, 0⟩ : Backtest.BPos).quantity 5).quantity = 0 ∧
     (Backtest.applyTrade ⟨7, 3, 0, 0⟩ "SELL" (⟨7, 3, 0, 0⟩ : Backtest.BPos).quantity 5).avg_price
        = (⟨7, 3, 0, 0⟩ : Backtest.BPos).avg_price) :=
  ⟨by decide, c5_full_close_keeps_avg_price ⟨7, 3, 0, 0⟩ 5 (by decide)⟩

/-- C8: an order stored in a terminal status (REJECTED, COMPLETE, CANCELLED
or ERROR) makes every modify and cancel return the cannot-modify /
cannot-cancel error with the whole executor state unchanged, and a modify or
cancel that changes the state was performed on a stored order whose status
was OPEN or PENDING. -/
theorem c8_terminal_orders_reject_modify_and_cancel :
    (∀ (s : Executor.EState) (oid : String) (o : Executor.EOrder)
        (price : Option ℚ) (qty : Option ℤ) (b : Bool),
      lookupA s.orders oid = some o →
      (o.status = "REJECTED" ∨ o.status = "COMPLETE" ∨
        o.status = "CANCELLED" ∨ o.status = "ERROR") →
      Executor.modify_order s oid price qty b
          = (Executor.ExecResult.err ("Cannot modify order with status " ++ o.status), s) ∧
      Executor.cancel_order s oid b
          = (Executor.ExecResult.err ("Cannot cancel order with status " ++ o.status), s)) ∧
    (∀ (s : Executor.EState) (oid : String) (price : Option ℚ) (qty : Option ℤ) (b : Bool),
      (Executor.modify_order s oid price qty b).2 ≠ s →
      ∃ o, lookupA s.orders oid = some o ∧ (o.status = "OPEN" ∨ o.status = "PENDING")) ∧
    (∀ (s : Executor.EState) (oid : String) (b : Bool),
      (Executor.cancel_order s oid b).2 ≠ s →
      ∃ o, lookupA s.orders oid = some o ∧ (o.status = "OPEN" ∨ o.status = "PENDING")) := by
  refine ⟨?_, ?_, ?_⟩
  · intro s oid o price qty b hl hterm
    have hst : o.status ≠ "OPEN" ∧ o.status ≠ "PENDING" := by
      rcases hterm with h | h | h | h <;> rw [h] <;> exact ⟨by decide, by decide⟩
    constructor
    · simp [Executor.modify_order, hl, hst]
    · simp [Executor.cancel_order, hl, hst]
  · intro s oid price qty b hne
    cases hl : lookupA s.orders oid with
    | none =>
      exfalso
      apply hne
      simp [Executor.modify_order, hl]
    | some o =>
      by_cases hst : o.status ≠ "OPEN" ∧ o.status ≠ "PENDING"
      · exfalso
        apply hne
        simp [Executor.modify_order, hl, hst]
      · refine ⟨o, rfl, ?_⟩
        rcases not_and_or.mp hst with h | h
        · exact Or.inl (not_not.mp h)
        · exact Or.inr (not_not.mp h)
  · intro s oid b hne
    cases hl : lookupA s.orders oid with
    | none =>
      exfalso
      apply hne
      simp [Executor.cancel_order, hl]
    | some o =>
      by_cases hst : o.status ≠ "OPEN" ∧ o.status ≠ "PENDING"
      · exfalso
        apply hne
        simp [Executor.cancel_order, hl, hst]
      · refine ⟨o, rfl, ?_⟩
        rcases not_and_or.mp hst with h | h
        · exact Or.inl (not_not.mp h)
        · exact Or.inr (not_not.mp h)

/-- Witness for C8: modify and cancel against the stored COMPLETE order both
return the terminal-status error and leave the state unchanged. -/
theorem c8_terminal_orders_reject_modify_and_cancel_witness :
    lookupA Executor.doneState.orders "ORD000001" = some Executor.doneOrder ∧
    (Executor.doneOrder.status = "REJECTED" ∨ Executor.doneOrder.status = "COMPLETE" ∨
      Executor.doneOrder.status = "CANCELLED" ∨ Executor.doneOrder.status = "ERROR") ∧
    Executor.modify_order Executor.doneState "ORD000001" (some 2350) none true
        = (Executor.ExecResult.err ("Cannot modify order with status " ++ Executor.doneOrder.status),
           Executor.doneState) ∧
    Executor.cancel_order Executor.doneState "ORD000001" true
        = (Executor.ExecResult.err ("Cannot cancel order with status " ++ Executor.doneOrder.status),
           Executor.doneState) := by
  have h := c8_terminal_orders_reject_modify_and_cancel.1 Executor.doneState "ORD000001"
    Executor.doneOrder (some 2350) none true (by decide) (by decide)
  exact ⟨by decide, by decide, h.1, h.2⟩

theorem strat_fold_drawdown_inv (pnls : List ℚ) :
    ∀ s : Strategy.PnlState, 0 ≤ s.max_drawdown → 0 ≤ s.peak_pnl →
      (s.peak_pnl ≤ 0 → s.max_drawdown = 0) →
      0 ≤ (pnls.foldl Strategy.update_pnl s).max_drawdown ∧
      0 ≤ (pnls.foldl Strategy.update_pnl s).peak_pnl ∧
      ((pnls.foldl Strategy.update_pnl s).peak_pnl ≤ 0 →
        (pnls.foldl Strategy.update_pnl s).max_drawdown = 0) := by
  induction pnls with
  | nil => intro s h1 h2 h3; exact ⟨h1, h2, h3⟩
  | cons x rest ih =>
    intro s h1 h2 h3
    simp only [List.foldl_cons]
    refine ih (Strategy.update_pnl s x) ?_ ?_ ?_
    · simp only [Strategy.update_pnl]
      split_ifs with hx hp
      · exact h1
      · exact le_max_of_le_left h1
      · exact le_max_of_le_left h1
    · simp only [Strategy.update_pnl]
      split_ifs with hx hp
      · exact le_of_lt (lt_of_le_of_lt h2 hx)
      · exact h2
      · exact h2
    · simp only [Strategy.update_pnl]
      split_ifs with hx hp
      · intro hple
        exact absurd hple (not_le.mpr (lt_of_le_of_lt h2 hx))
      · intro hple
        exact absurd hple (not_le.mpr hp)
      · intro hple
        simp [h3 hple]

theorem strat_fold_le_one (pnls : List ℚ) :
    ∀ s : Strategy.PnlState, (∀ x ∈ pnls, 0 ≤ x) → s.max_drawdown ≤ 1 →
      (pnls.foldl Strategy.update_pnl s).max_drawdown ≤ 1 := by
  induction pnls with
  | nil => intro s _ h; exact h
  | cons x rest ih =>
    intro s hall h
    simp only [List.foldl_cons]
    refine ih (Strategy.update_pnl s x) (fun y hy => hall y (List.mem_cons_of_mem _ hy)) ?_
    have hx0 : 0 ≤ x := hall x (List.mem_cons_self _ _)
    simp only [Strategy.update_pnl]
    split_ifs with hx hp
    · exact h
    · refine max_le h ?_
      rw [div_le_one hp]
      linarith
    · exact max_le h zero_le_one

theorem risk_update_pnl_drawdown_nonneg (s : Risk.RiskState) (_h : 0 ≤ s.peak_pnl) :
    0 ≤ (Risk.update_pnl s).current_drawdown ∧
    ((Risk.update_pnl s).peak_pnl ≤ 0 → (Risk.update_pnl s).current_drawdown = 0) := by
  simp only [Risk.update_pnl]
  constructor
  · split_ifs with h1 h2 h3
    · simp
    · exact le_refl 0
    · have hle : ((s.positions.map Risk.posPnlStep).map Prod.snd).sum ≤ s.peak_pnl :=
        not_lt.mp h1
      exact div_nonneg (by linarith) (le_of_lt h3)
    · exact le_refl 0
  · intro hple
    exact if_neg (not_lt.mpr hple)

/-- C6 (amended): the computed drawdown is always non-negative, equals 0
whenever the peak P&L is not positive, and stays within [0, 1] when the fed
P&L values are non-negative (a negative current P&L against a positive peak
pushes it above 1); the same non-negativity and zero-when-peak-nonpositive
facts hold for each RiskManager.update_pnl step from a non-negative peak. -/
theorem c6_drawdown_nonneg_bounds :
    (∀ pnls : List ℚ,
      0 ≤ (Strategy.runPnls pnls).max_drawdown ∧
      ((Strategy.runPnls pnls).peak_pnl ≤ 0 → (Strategy.runPnls pnls).max_drawdown = 0)) ∧
    (∀ pnls : List ℚ, (∀ x ∈ pnls, 0 ≤ x) → (Strategy.runPnls pnls).max_drawdown ≤ 1) ∧
    (∀ s : Risk.RiskState, 0 ≤ s.peak_pnl →
      0 ≤ (Risk.update_pnl s).current_drawdown ∧
      ((Risk.update_pnl s).peak_pnl ≤ 0 → (Risk.update_pnl s).current_drawdown = 0)) := by
  refine ⟨fun pnls => ?_, fun pnls h => ?_, fun s h => risk_update_pnl_drawdown_nonneg s h⟩
  · have hinv := strat_fold_drawdown_inv pnls Strategy.stratInit
      (le_refl 0) (le_refl 0) (fun _ => rfl)
    exact ⟨hinv.1, hinv.2.2⟩
  · exact strat_fold_le_one pnls Strategy.stratInit h zero_le_one

/-- Witness for C6's amended theorem at concrete inputs: a single fed loss
keeps the drawdown at 0, non-negative fed values keep it at most 1, and one
risk-side P&L update from the fresh state has non-negative drawdown. -/
theorem c6_drawdown_nonneg_bounds_witness :
    ((Strategy.runPnls [-5]).peak_pnl ≤ 0 ∧ (Strategy.runPnls [-5]).max_drawdown = 0) ∧
    ((∀ x ∈ [(1 : ℚ), 1/2], 0 ≤ x) ∧ (Strategy.runPnls [1, 1/2]).max_drawdown ≤ 1) ∧
    (0 ≤ (Risk.riskInit Risk.defaultParams).peak_pnl ∧
      0 ≤ (Risk.update_pnl (Risk.riskInit Risk.defaultParams)).current_drawdown) := by
  have h1 : (Strategy.runPnls [-5]).peak_pnl ≤ 0 := by
    norm_num [Strategy.runPnls, Strategy.update_pnl, Strategy.stratInit]
  have h2 : ∀ x ∈ [(1 : ℚ), 1/2], 0 ≤ x := by norm_num
  have h3 : 0 ≤ (Risk.riskInit Risk.defaultParams).peak_pnl := le_refl 0
  exact ⟨⟨h1, (c6_drawdown_nonneg_bounds.1 [-5]).2 h1⟩,
    ⟨h2, c6_drawdown_nonneg_bounds.2.1 [1, 1/2] h2⟩,
    ⟨h3, (c6_drawdown_nonneg_bounds.2.2 (Risk.riskInit Risk.defaultParams) h3).1⟩⟩

/-- C9: every trade record appended by execute_signal carries no pnl value,
and the win-rate computation over any non-empty trade list whose records all
lack pnl returns 0. -/
theorem c9_recorded_trades_lack_pnl_so_win_rate_zero :
    (∀ (s : Backtest.BState) (sig : Backtest.Signal) (ts : String) (s₂ : Backtest.BState),
      Backtest.execute_signal s sig ts = some s₂ →
      ∃ t, s₂.trades = s.trades ++ [t] ∧ t.pnl = none) ∧
    (∀ trades : List Backtest.Trade, (∀ t ∈ trades, t.pnl = none) → trades ≠ [] →
      Backtest.win_rate trades = 0) := by
  constructor
  · intro s sig ts s₂ h
    cases hpr : sig.price with
    | none =>
      simp only [Backtest.execute_signal, hpr] at h
      exact Option.noConfusion h
    | some pr =>
      simp only [Backtest.execute_signal, hpr] at h
      by_cases hc : pr = 0 ∨ sig.order_type = "MARKET"
      · rw [if_pos hc] at h
        exact Option.noConfusion h
      · rw [if_neg hc] at h
        cases h
        exact ⟨⟨sig.instrument, sig.action, sig.quantity, pr, ts, sig.order_type, none⟩, rfl, rfl⟩
  · intro trades hall hne
    have hw : Backtest.winning_trades trades = 0 := by
      rw [Backtest.winning_trades]
      rw [List.countP_eq_zero]
      intro t ht
      simp [hall t ht]
    rw [Backtest.win_rate, if_pos (List.length_pos.mpr hne), hw]
    simp

/-- Witness for C9: executing the demo limit signal appends exactly one
trade without pnl, and the win rate over that trade list is 0. -/
theorem c9_recorded_trades_lack_pnl_so_win_rate_zero_witness :
    Backtest.execute_signal ⟨[], []⟩ Backtest.demoSignal "t0" = some Backtest.demoResult ∧
    (∃ t, Backtest.demoResult.trades = (⟨[], []⟩ : Backtest.BState).trades ++ [t] ∧
      t.pnl = none) ∧
    ((∀ t ∈ Backtest.demoResult.trades, t.pnl = none) ∧
      Backtest.demoResult.trades ≠ [] ∧
      Backtest.win_rate Backtest.demoResult.trades = 0) := by
  have h0 : Backtest.execute_signal ⟨[], []⟩ Backtest.demoSignal "t0"
      = some Backtest.demoResult := rfl
  have h1 : ∀ t ∈ Backtest.demoResult.trades, t.pnl = none := by decide
  have h2 : Backtest.demoResult.trades ≠ [] := by decide
  exact ⟨h0, c9_recorded_trades_lack_pnl_so_win_rate_zero.1 _ _ _ _ h0,
    h1, h2, c9_recorded_trades_lack_pnl_so_win_rate_zero.2 _ h1 h2⟩

theorem lookupA_update_position (book : List (String × Backtest.BPos)) (t : Backtest.Trade) :
    lookupA (Backtest.update_position book t) t.instrument
      = some (Backtest.applyTrade ((lookupA book t.instrument).getD (Backtest.initBPos t.price))
          t.action t.quantity t.price) := by
  unfold Backtest.update_position
  cases h : lookupA book t.instrument with
  | some p => simp [h, lookupA_setA_self]
  | none =>
    simp [lookupA_append_single book t.instrument (Backtest.initBPos t.price) h,
      lookupA_setA_self]

theorem fold_buys_lookup (fills : List (ℤ × ℚ)) :
    ∀ (book : List (String × Backtest.BPos)) (p : Backtest.BPos),
      lookupA book "X" = some p →
      lookupA (fills.foldl (fun b f => Backtest.update_position b (Backtest.buyFillTrade f)) book) "X"
        = some (fills.foldl Backtest.applyBuy p) := by
  induction fills with
  | nil => intro book p h; simpa using h
  | cons f rest ih =>
    intro book p h
    simp only [List.foldl_cons]
    apply ih
    have h2 := lookupA_update_position book (Backtest.buyFillTrade f)
    simp only [Backtest.buyFillTrade] at h2
    rw [h] at h2
    simpa [Backtest.applyBuy] using h2

theorem applyBuy_step (p : Backtest.BPos) (f : ℤ × ℚ) (hq : 0 ≤ p.quantity) (hf : 0 < f.1) :
    (Backtest.applyBuy p f).quantity = p.quantity + f.1 ∧
    ((Backtest.applyBuy p f).quantity : ℚ) * (Backtest.applyBuy p f).avg_price
      = (p.quantity : ℚ) * p.avg_price + (f.1 : ℚ) * f.2 := by
  have hne : p.quantity + f.1 ≠ 0 := by omega
  have hneQ : (p.quantity : ℚ) + (f.1 : ℚ) ≠ 0 := by exact_mod_cast hne
  constructor
  · simp [Backtest.applyBuy, Backtest.applyTrade, hne]
  · simp only [Backtest.applyBuy, Backtest.applyTrade, if_pos rfl, if_pos hne]
    push_cast
    rw [mul_comm, div_mul_cancel₀ _ hneQ]

theorem buy_fold_invariant (fills : List (ℤ × ℚ)) :
    ∀ p : Backtest.BPos, 0 ≤ p.quantity → (∀ f ∈ fills, 0 < f.1) →
      (fills.foldl Backtest.applyBuy p).quantity = p.quantity + (fills.map Prod.fst).sum ∧
      ((fills.foldl Backtest.applyBuy p).quantity : ℚ)
          * (fills.foldl Backtest.applyBuy p).avg_price
        = (p.quantity : ℚ) * p.avg_price + (fills.map (fun f => (f.1 : ℚ) * f.2)).sum := by
  induction fills with
  | nil => intro p _ _; simp
  | cons f rest ih =>
    intro p hq hall
    have hf : 0 < f.1 := hall f (List.mem_cons_self _ _)
    have hstep := applyBuy_step p f hq hf
    have hq2 : 0 ≤ (Backtest.applyBuy p f).quantity := by
      rw [hstep.1]; omega
    have hrest := ih (Backtest.applyBuy p f) hq2 (fun g hg => hall g (List.mem_cons_of_mem _ hg))
    simp only [List.foldl_cons, List.map_cons, List.sum_cons]
    constructor
    · rw [hrest.1, hstep.1]; ring
    · rw [hrest.2, hstep.2]; ring

/-- C4: applying any non-empty sequence of BUY fills with positive
quantities to an initially empty position yields quantity Σ qty_i and
avg_price equal to the quantity-weighted mean (Σ qty_i * price_i) / Σ qty_i
of the fill prices. -/
theorem c4_buy_fills_weighted_average :
    ∀ fills : List (ℤ × ℚ), fills ≠ [] → (∀ f ∈ fills, 0 < f.1) →
      Backtest.qtyOf (Backtest.runBuys fills) "X" = (fills.map Prod.fst).sum ∧
      Backtest.avgOf (Backtest.runBuys fills) "X"
        = (fills.map (fun f => (f.1 : ℚ) * f.2)).sum / (((fills.map Prod.fst).sum : ℤ) : ℚ) := by
  intro fills hne hall
  obtain ⟨f, rest, rfl⟩ := List.exists_cons_of_ne_nil hne
  have h0 : lookupA (Backtest.update_position [] (Backtest.buyFillTrade f)) "X"
      = some (Backtest.applyBuy (Backtest.initBPos f.2) f) := by
    have h2 := lookupA_update_position [] (Backtest.buyFillTrade f)
    simp only [Backtest.buyFillTrade, lookupA] at h2
    exact h2
  have hlk : lookupA (Backtest.runBuys (f :: rest)) "X"
      = some ((f :: rest).foldl Backtest.applyBuy (Backtest.initBPos f.2)) := by
    rw [Backtest.runBuys, List.foldl_cons, List.foldl_cons]
    exact fold_buys_lookup rest _ _ h0
  have hinv := buy_fold_invariant (f :: rest) (Backtest.initBPos f.2) (by simp [Backtest.initBPos]) hall
  have hsum_pos : 0 < ((f :: rest).map Prod.fst).sum :=
    List.sum_pos _ (by
      intro x hx
      simp only [List.mem_map] at hx
      obtain ⟨g, hg, rfl⟩ := hx
      exact hall g hg) (by simp)
  have hqty : Backtest.qtyOf (Backtest.runBuys (f :: rest)) "X"
      = ((f :: rest).foldl Backtest.applyBuy (Backtest.initBPos f.2)).quantity := by
    simp [Backtest.qtyOf, hlk]
  have havg : Backtest.avgOf (Backtest.runBuys (f :: rest)) "X"
      = ((f :: rest).foldl Backtest.applyBuy (Backtest.initBPos f.2)).avg_price := by
    simp [Backtest.avgOf, hlk]
  have hq0 : (Backtest.initBPos f.2).quantity = 0 := rfl
  have ha0 : (Backtest.initBPos f.2).avg_price = 0 := rfl
  have hqsum : ((f :: rest).foldl Backtest.applyBuy (Backtest.initBPos f.2)).quantity
      = ((f :: rest).map Prod.fst).sum := by
    rw [hinv.1, hq0, zero_add]
  constructor
  · rw [hqty, hqsum]
  · rw [havg]
    have hmul := hinv.2
    rw [hq0, ha0, hqsum] at hmul
    have hcast : ((((f :: rest).map Prod.fst).sum : ℤ) : ℚ) ≠ 0 := by
      exact_mod_cast ne_of_gt hsum_pos
    rw [eq_div_iff hcast, mul_comm]
    simpa using hmul

/-- Witness for C4: two BUY fills, 10 @ 100 then 30 @ 200, give quantity 40
and average price (10*100 + 30*200)/40 = 175. -/
theorem c4_buy_fills_weighted_average_witness :
    ([((10 : ℤ), (100 : ℚ)), (30, 200)] ≠ []) ∧
    (∀ f ∈ [((10 : ℤ), (100 : ℚ)), (30, 200)], 0 < f.1) ∧
    (Backtest.qtyOf (Backtest.runBuys [((10 : ℤ), (100 : ℚ)), (30, 200)]) "X"
        = (([((10 : ℤ), (100 : ℚ)), (30, 200)]).map Prod.fst).sum ∧
     Backtest.avgOf (Backtest.runBuys [((10 : ℤ), (100 : ℚ)), (30, 200)]) "X"
        = (([((10 : ℤ), (100 : ℚ)), (30, 200)]).map (fun f => (f.1 : ℚ) * f.2)).sum
            / (((([((10 : ℤ), (100 : ℚ)), (30, 200)]).map Prod.fst).sum : ℤ) : ℚ)) :=
  ⟨by decide, by decide,
    c4_buy_fills_weighted_average [((10 : ℤ), (100 : ℚ)), (30, 200)] (by decide) (by decide)⟩

theorem risk_update_pnl_zero (s : Risk.RiskState)
    (h : ∀ e ∈ s.positions, e.2.avg_price = 0) (hp : s.peak_pnl = 0) :
    Risk.update_pnl s
      = { s with daily_pnl := 0, peak_pnl := 0, current_drawdown := 0 } := by
  have hstep : ∀ e ∈ s.positions, Risk.posPnlStep e = (e, 0) := by
    intro e he
    simp [Risk.posPnlStep, h e he]
  have hmap : s.positions.map Risk.posPnlStep = s.positions.map (fun e => (e, 0)) :=
    List.map_congr_left hstep
  have htotal : ((s.positions.map Risk.posPnlStep).map Prod.snd).sum = 0 := by
    rw [hmap, List.map_map]
    exact List.sum_eq_zero (by
      intro x hx
      simp only [List.mem_map] at hx
      obtain ⟨e, _, rfl⟩ := hx
      rfl)
  have hfst : (s.positions.map Risk.posPnlStep).map Prod.fst = s.positions := by
    rw [hmap, List.map_map]
    have hcomp : (Prod.fst ∘ fun e : String × Risk.RiskPos => (e, (0 : ℚ))) = id := rfl
    rw [hcomp, List.map_id]
  simp only [Risk.update_pnl, htotal, hfst, hp]
  norm_num

theorem risk_update_position_inv (s : Risk.RiskState) (inst : String) (q : ℤ) (price : ℚ)
    (h : ∀ e ∈ s.positions, e.2.avg_price = 0) (hp : s.peak_pnl = 0) :
    (∀ e ∈ (Risk.update_position s inst q price).positions, e.2.avg_price = 0) ∧
    (Risk.update_position s inst q price).daily_pnl = 0 ∧
    (Risk.update_position s inst q price).peak_pnl = 0 ∧
    (Risk.update_position s inst q price).current_drawdown = 0 ∧
    (Risk.update_position s inst q price).params = s.params := by
  rw [Risk.update_position]
  have h0 : ∀ e ∈ (match lookupA s.positions inst with
      | some _ => s.positions
      | none => s.positions ++ [(inst, (⟨0, 0, 0, 0⟩ : Risk.RiskPos))]),
      e.2.avg_price = 0 := by
    cases hl : lookupA s.positions inst with
    | some p => exact h
    | none =>
      intro e he
      rcases List.mem_append.mp he with h1 | h1
      · exact h e h1
      · simp only [List.mem_singleton] at h1
        rw [h1]
      -- new entry has avg_price 0
  set positions₀ := (match lookupA s.positions inst with
      | some _ => s.positions
      | none => s.positions ++ [(inst, (⟨0, 0, 0, 0⟩ : Risk.RiskPos))]) with hpos₀
  set p₀ := (lookupA positions₀ inst).getD (⟨0, 0, 0, 0⟩ : Risk.RiskPos) with hp₀
  have hpavg : p₀.avg_price = 0 := by
    rw [hp₀]
    cases hl : lookupA positions₀ inst with
    | some v => exact h0 (inst, v) (lookupA_mem _ _ _ hl)
    | none => rfl
  have hall : ∀ e ∈ setA positions₀ inst
      { p₀ with quantity := q, last_price := price }, e.2.avg_price = 0 := by
    intro e he
    rcases mem_setA _ _ _ _ he with h1 | h1
    · exact h0 e h1
    · rw [h1]
      exact hpavg
  have hz := risk_update_pnl_zero
    { s with positions := setA positions₀ inst { p₀ with quantity := q, last_price := price } }
    hall hp
  rw [hz]
  exact ⟨hall, rfl, rfl, rfl, rfl⟩

/-- C10: feeding any sequence of (instrument, quantity, price) updates
through RiskManager.update_position from a fresh state leaves daily_pnl,
peak_pnl and current_drawdown at exactly 0 — update_position initializes
avg_price to 0 and never changes it, and the P&L recomputation skips every
position with avg_price 0 — so with non-negative configured caps the daily
loss and drawdown checks can never fail through this interface alone. -/
theorem c10_update_position_keeps_pnl_zero :
    ∀ (p : Risk.RiskParams) (us : List (String × ℤ × ℚ)),
      (Risk.runUpdates p us).daily_pnl = 0 ∧
      (Risk.runUpdates p us).peak_pnl = 0 ∧
      (Risk.runUpdates p us).current_drawdown = 0 ∧
      (0 ≤ p.max_daily_loss → Risk.check_daily_loss_limit (Risk.runUpdates p us) = true) ∧
      (0 ≤ p.max_drawdown → Risk.check_drawdown_limit (Risk.runUpdates p us) = true) := by
  intro p us
  have main : ∀ (l : List (String × ℤ × ℚ)) (s : Risk.RiskState),
      (∀ e ∈ s.positions, e.2.avg_price = 0) →
      s.daily_pnl = 0 → s.peak_pnl = 0 → s.current_drawdown = 0 → s.params = p →
      (∀ e ∈ (l.foldl (fun s u => Risk.update_position s u.1 u.2.1 u.2.2) s).positions,
          e.2.avg_price = 0) ∧
      (l.foldl (fun s u => Risk.update_position s u.1 u.2.1 u.2.2) s).daily_pnl = 0 ∧
      (l.foldl (fun s u => Risk.update_position s u.1 u.2.1 u.2.2) s).peak_pnl = 0 ∧
      (l.foldl (fun s u => Risk.update_position s u.1 u.2.1 u.2.2) s).current_drawdown = 0 ∧
      (l.foldl (fun s u => Risk.update_position s u.1 u.2.1 u.2.2) s).params = p := by
    intro l
    induction l with
    | nil => intro s h1 h2 h3 h4 h5; exact ⟨h1, h2, h3, h4, h5⟩
    | cons u rest ih =>
      intro s h1 h2 h3 h4 h5
      simp only [List.foldl_cons]
      have hstep := risk_update_position_inv s u.1 u.2.1 u.2.2 h1 h3
      exact ih _ hstep.1 hstep.2.1 hstep.2.2.1 hstep.2.2.2.1 (hstep.2.2.2.2.trans h5)
  have hfold := main us (Risk.riskInit p) (by simp [Risk.riskInit]) rfl rfl rfl rfl
  refine ⟨hfold.2.1, hfold.2.2.1, hfold.2.2.2.1, ?_, ?_⟩
  · intro hcap
    have h1 : (Risk.runUpdates p us).daily_pnl = 0 := hfold.2.1
    have h2 : (Risk.runUpdates p us).params = p := hfold.2.2.2.2
    rw [Risk.check_daily_loss_limit, h1, h2]
    simp only [decide_eq_true_eq]
    linarith
  · intro hcap
    have h1 : (Risk.runUpdates p us).current_drawdown = 0 := hfold.2.2.2.1
    have h2 : (Risk.runUpdates p us).params = p := hfold.2.2.2.2
    rw [Risk.check_drawdown_limit, h1, h2]
    simp only [decide_eq_true_eq]
    exact hcap

/-- Witness for C10: two concrete position updates on the default parameters
leave daily P&L and drawdown at 0 and both checks passing. -/
theorem c10_update_position_keeps_pnl_zero_witness :
    (Risk.runUpdates Risk.defaultParams [("A", 5, 100), ("A", -3, 90)]).daily_pnl = 0 ∧
    (Risk.runUpdates Risk.defaultParams [("A", 5, 100), ("A", -3, 90)]).current_drawdown = 0 ∧
    (0 ≤ Risk.defaultParams.max_daily_loss ∧
      Risk.check_daily_loss_limit
        (Risk.runUpdates Risk.defaultParams [("A", 5, 100), ("A", -3, 90)]) = true) ∧
    (0 ≤ Risk.defaultParams.max_drawdown ∧
      Risk.check_drawdown_limit
        (Risk.runUpdates Risk.defaultParams [("A", 5, 100), ("A", -3, 90)]) = true) := by
  have h := c10_update_position_keeps_pnl_zero Risk.defaultParams [("A", 5, 100), ("A", -3, 90)]
  have hc1 : (0 : ℚ) ≤ Risk.defaultParams.max_daily_loss := by norm_num [Risk.defaultParams]
  have hc2 : (0 : ℚ) ≤ Risk.defaultParams.max_drawdown := by norm_num [Risk.defaultParams]
  exact ⟨h.1, h.2.2.1, ⟨hc1, h.2.2.2.1 hc1⟩, ⟨hc2, h.2.2.2.2 hc2⟩⟩

theorem roundHalfEven_dist (x : ℚ) : |(Strategy.roundHalfEven x : ℚ) - x| ≤ 1/2 := by
  have h0 : (⌊x⌋ : ℚ) ≤ x := Int.floor_le x
  have h1 : x < ⌊x⌋ + 1 := Int.lt_floor_add_one x
  rw [Strategy.roundHalfEven]
  split_ifs with ha hb hc
  · rw [abs_sub_comm, abs_of_nonneg (by linarith)]
    linarith
  · push_cast
    rw [abs_of_nonneg (by linarith)]
    linarith
  · rw [abs_sub_comm, abs_of_nonneg (by linarith)]
    linarith
  · push_cast
    rw [abs_of_nonneg (by linarith)]
    linarith

theorem rounded_mult_dist (inc : ℚ) (hinc : 0 < inc) (x : ℚ) :
    |(Strategy.roundHalfEven (x / inc) : ℚ) * inc - x| ≤ inc / 2 := by
  have h := roundHalfEven_dist (x / inc)
  have hx : (Strategy.roundHalfEven (x / inc) : ℚ) * inc - x
      = ((Strategy.roundHalfEven (x / inc) : ℚ) - x / inc) * inc := by
    field_simp
  rw [hx, abs_mul, abs_of_pos hinc]
  calc |(Strategy.roundHalfEven (x / inc) : ℚ) - x / inc| * inc
      ≤ (1/2) * inc := mul_le_mul_of_nonneg_right h (le_of_lt hinc)
    _ = inc / 2 := by ring

/-- C7 (amended): the quoted bid and ask are the raw prices mid minus
and plus mid * spread_pct, rounded to the NEAREST multiple of the configured increment with ties
resolved to the even quotient (the builtin round), not half-up: each quote
is within half an increment of the raw price, and the concrete scenario
mid = 22428.35, spread 0.05%, increment 0.05 gives bid 22417.15 and ask
22439.55. -/
theorem c7_quotes_round_to_nearest_increment :
    (∀ (p : Strategy.MMParams) (mid : ℚ), 0 < p.min_price_increment →
      |Strategy.calculate_bid_price p mid - (mid - mid * p.spread_percentage)|
          ≤ p.min_price_increment / 2 ∧
      |Strategy.calculate_ask_price p mid - (mid + mid * p.spread_percentage)|
          ≤ p.min_price_increment / 2) ∧
    Strategy.calculate_bid_price Strategy.mmScenario (448567/20) = 448343/20 ∧
    Strategy.calculate_ask_price Strategy.mmScenario (448567/20) = 448791/20 := by
  refine ⟨fun p mid h => ⟨?_, ?_⟩, ?_, ?_⟩
  · exact rounded_mult_dist p.min_price_increment h (mid - mid * p.spread_percentage)
  · exact rounded_mult_dist p.min_price_increment h (mid + mid * p.spread_percentage)
  · norm_num [Strategy.calculate_bid_price, Strategy.roundHalfEven, Strategy.mmScenario]
  · norm_num [Strategy.calculate_ask_price, Strategy.roundHalfEven, Strategy.mmScenario]

/-- Witness for C7's amended theorem at mid = 100 with the scenario
parameters. -/
theorem c7_quotes_round_to_nearest_increment_witness :
    0 < Strategy.mmScenario.min_price_increment ∧
    (|Strategy.calculate_bid_price Strategy.mmScenario 100
        - (100 - 100 * Strategy.mmScenario.spread_percentage)|
          ≤ Strategy.mmScenario.min_price_increment / 2 ∧
     |Strategy.calculate_ask_price Strategy.mmScenario 100
        - (100 + 100 * Strategy.mmScenario.spread_percentage)|
          ≤ Strategy.mmScenario.min_price_increment / 2) := by
  constructor
  · norm_num [Strategy.mmScenario]
  · exact c7_quotes_round_to_nearest_increment.1 Strategy.mmScenario 100
      (by norm_num [Strategy.mmScenario])
